import Mathlib

/-!
Verification development for a small Go Lisp interpreter
(byte-level lexer, recursive-descent parser, tree-walking evaluator).
The definitions below are a shallow embedding of the Go source:
pure Go functions become Lean functions, the mutating lexer/parser state
is threaded explicitly, Go `(value, error)` returns become pairs with
`Option Err` or `Except Err`, and Go `panic` is modelled by the
`Err.goAbort` variant.  Source strings are `List Char` (the input is
ASCII bytes, one `Char` per byte).
-/

namespace GoLisp

/-- Go `TokenType`. -/
inductive TokenType where
  | invalid
  | number
  | identifier
  | str
  | lparen
  | rparen
  | dot
  | quote
  deriving DecidableEq, Repr

/-- Go `Token`: offset/length index into the cumulative source buffer. -/
structure Token where
  offset : Nat
  length : Nat
  type : TokenType
  deriving DecidableEq, Repr

/-- The zero value of Go's `Token` struct. -/
def defaultToken : Token := ⟨0, 0, .invalid⟩

/-- Go `LexState`. -/
inductive LexState where
  | idle
  | number
  | identifier
  | comment
  | stringLit
  | stringEscaped
  deriving DecidableEq, Repr

/-- Go `Lex`: cumulative source buffer, all tokens ever begun, FSM state. -/
structure Lex where
  source : List Char
  tokens : List Token
  state : LexState
  deriving DecidableEq, Repr

/-- Errors.  Go returns values of interface type `error`; the concrete
values in this program are the `Error` struct (`Err.mk`), the sentinel
`io.EOF` (`Err.eof`), or a runtime `panic` (`Err.goAbort`).  `Err.fuelOut`
is an artifact of the fuel-indexed recursion used for the parser and the
evaluator; it never arises when enough fuel is supplied. -/
inductive Err where
  | eof
  | fuelOut
  | goAbort (msg : String)
  | mk (lineNumber : Nat) (offsetInLine : Nat) (text : String)
  deriving DecidableEq, Repr

/-- The scanning loop of Go `NewError`.  The parameters mirror the Go
local variables `i`, `line`, `offsetInLine` and `prev`.  Note that in the
Go source `prev` is declared but never assigned, so it stays `0`
throughout the loop; the recursion below threads it unchanged, exactly as
the Go code does. -/
def newErrorLoop (offset : Nat) : List Char → Nat → Nat → Nat → Char → Nat × Nat
  | [], _, line, offsetInLine, _ => (line, offsetInLine)
  | c :: rest, i, line, offsetInLine, prev =>
    if i = offset then
      -- The length of source may exceed greatly the offset of error location.
      (line, offsetInLine)
    else
      let offsetInLine := offsetInLine + 1
      if prev = Char.ofNat 13 ∧ c = Char.ofNat 10 then
        -- Go intends not to double count a CR+LF pair here, but since
        -- `prev` is never updated this branch can never be taken.
        newErrorLoop offset rest (i + 1) line 0 prev
      else if c = Char.ofNat 13 ∨ c = Char.ofNat 10 then
        newErrorLoop offset rest (i + 1) (line + 1) 0 prev
      else
        newErrorLoop offset rest (i + 1) line offsetInLine prev

/-- Go `NewError(source, offset, text)`: computes a 1-based line and
column for `offset` by rescanning `source`. -/
def newError (source : List Char) (offset : Nat) (text : String) : Err :=
  let r := newErrorLoop offset source 0 1 0 (Char.ofNat 0)
  Err.mk r.1 (r.2 + 1) text

/-- Go `IsNumeric`. -/
def isNumeric (c : Char) : Bool := Char.ofNat 48 ≤ c ∧ c ≤ Char.ofNat 57

/-- Go `IsAlphabetic` (the redundant `w x y z` disjuncts of the source are
kept; code 92 is the backslash, 96 the backtick, 39 the single quote). -/
def isAlphabetic (c : Char) : Bool :=
  (Char.ofNat 97 ≤ c ∧ c ≤ Char.ofNat 122) ∨ (Char.ofNat 65 ≤ c ∧ c ≤ Char.ofNat 90) ∨
    c = 'w' ∨ c = 'x' ∨
    c = 'y' ∨ c = 'z' ∨ c = '-' ∨ c = '!' ∨ c = '$' ∨ c = '%' ∨ c = '*' ∨
    c = '+' ∨ c = '?' ∨ c = '&' ∨ c = '.' ∨ c = Char.ofNat 92 ∨ c = '/' ∨ c = '~' ∨
    c = Char.ofNat 96 ∨ c = ':' ∨ c = '=' ∨ c = '<' ∨ c = '>' ∨
    c = '^' ∨ c = '#'

/-- Go `IsCommentCharacter`. -/
def isCommentCharacter (c : Char) : Bool :=
  c = Char.ofNat 9 ∨ (Char.ofNat 32 ≤ c ∧ c ≤ Char.ofNat 126)

/-- Go `IsPrintableCharacter`. -/
def isPrintableCharacter (c : Char) : Bool :=
  Char.ofNat 32 ≤ c ∧ c ≤ Char.ofNat 126

/-- Go `IsStringCharacter`. -/
def isStringCharacter (c : Char) : Bool :=
  c = Char.ofNat 9 ∨ c = Char.ofNat 10 ∨ c = Char.ofNat 13 ∨
    (Char.ofNat 32 ≤ c ∧ c ≤ Char.ofNat 126)

/-- Go `IsAlphaNumeric`. -/
def isAlphaNumeric (c : Char) : Bool :=
  isNumeric c ∨ isAlphabetic c ∨ c = '!' ∨ c = '$'

/-- Go `IsSingleCharToken` (code 39 is the single quote). -/
def isSingleCharToken (c : Char) : Bool :=
  c = '(' ∨ c = ')' ∨ c = '.' ∨ c = Char.ofNat 39

/-- Go `TokenFromByte`.  The Go function panics on any other byte; every
call site guards with `IsSingleCharToken`, so the `.invalid` fallback is
unreachable. -/
def tokenFromByte (c : Char) : TokenType :=
  if c = '(' then .lparen
  else if c = ')' then .rparen
  else if c = '.' then .dot
  else if c = Char.ofNat 39 then .quote
  else .invalid

/-- One uppercase hex digit. -/
def hexDigit (n : Nat) : Char :=
  if n < 10 then Char.ofNat (48 + n) else Char.ofNat (65 + (n - 10))

/-- Go `fmt.Sprintf("%X", c)` for a byte value (minimal digits). -/
def byteHex (n : Nat) : String :=
  if n < 16 then (hexDigit n).toString
  else (hexDigit (n / 16 % 16)).toString ++ (hexDigit (n % 16)).toString

/-- Go `Lex.NewUnexpectedByteError`: offset is the current (pre-append)
source length. -/
def Lex.newUnexpectedByteError (l : Lex) (c : Char) : Err :=
  let text :=
    if isPrintableCharacter c then
      "unexpected byte " ++ (Char.ofNat 39).toString ++ c.toString ++ (Char.ofNat 39).toString
    else
      "unexpected byte 0x" ++ byteHex c.toNat
  newError l.source l.source.length text

/-- Go `Lex.LastToken` reads `Tokens[len(Tokens)-1]`; it is only ever
called in states where at least one token has been begun, so the default
for an empty list is unreachable. -/
def Lex.lastTokenD (l : Lex) : Token := l.tokens.getLastD defaultToken

/-- Go `Lex.LastTokenMut` mutates `Tokens[len(Tokens)-1]` in place; here,
replace the last list entry.  As with `lastTokenD`, the empty-list case is
unreachable. -/
def updateLast (ts : List Token) (f : Token → Token) : List Token :=
  ts.dropLast ++ [f (ts.getLastD defaultToken)]

/-- `LastTokenMut().Length += 1` from the Go source. -/
def extendLast (ts : List Token) : List Token :=
  updateLast ts (fun t => { t with length := t.length + 1 })

/-- `LastTokenMut().Length += 1; LastTokenMut().Type = TokIdentifier`
from the Go source. -/
def extendRetypeLast (ts : List Token) : List Token :=
  updateLast ts (fun t => { t with length := t.length + 1, type := .identifier })

/-- Go `Lex.AddToken`: flush the in-progress token (if any) and record a
fresh single-character token.  Returns the emitted tokens and the new
lexer state. -/
def Lex.addToken (l : Lex) (t : TokenType) : List Token × Lex :=
  let flushed := if l.state ≠ .idle then [l.lastTokenD] else []
  let newToken : Token := ⟨l.source.length, 1, t⟩
  (flushed ++ [newToken], { l with state := .idle, tokens := l.tokens ++ [newToken] })

/-- Go `Lex.BeginNumber`. -/
def Lex.beginNumber (l : Lex) : Lex :=
  { l with tokens := l.tokens ++ [⟨l.source.length, 1, .number⟩], state := .number }

/-- Go `Lex.BeginIdentifier`. -/
def Lex.beginIdentifier (l : Lex) : Lex :=
  { l with tokens := l.tokens ++ [⟨l.source.length, 1, .identifier⟩], state := .identifier }

/-- Go `Lex.BeginString`: returns the flushed in-progress token (if any);
the new String token itself is only returned once it closes. -/
def Lex.beginString (l : Lex) : List Token × Lex :=
  let flushed := if l.state ≠ .idle then [l.lastTokenD] else []
  (flushed, { l with tokens := l.tokens ++ [⟨l.source.length, 1, .str⟩], state := .stringLit })

/-- Go `Lex.ConsumeImpl`: the per-byte FSM transition.  Returns the
emitted tokens, the new lexer (source not yet appended), and an optional
error. -/
def consumeImpl (l : Lex) (c : Char) : List Token × Lex × Option Err :=
  match l.state with
  | .idle =>
    if isSingleCharToken c then
      let r := l.addToken (tokenFromByte c); (r.1, r.2, none)
    else if c = ' ' ∨ c = Char.ofNat 10 ∨ c = Char.ofNat 13 ∨ c = Char.ofNat 9 then
      ([], l, none)
    else if isNumeric c then
      ([], l.beginNumber, none)
    else if isAlphaNumeric c then
      ([], l.beginIdentifier, none)
    else if c = Char.ofNat 34 then
      let r := l.beginString; (r.1, r.2, none)
    else if c = ';' then
      ([], { l with state := .comment }, none)
    else
      ([], l, some (l.newUnexpectedByteError c))
  | .number =>
    if isSingleCharToken c then
      let r := l.addToken (tokenFromByte c); (r.1, r.2, none)
    else if c = Char.ofNat 34 then
      -- Go calls BeginString here and discards its return value,
      -- so the flushed Number token is never emitted.
      ([], (l.beginString).2, none)
    else if c = ' ' ∨ c = Char.ofNat 10 ∨ c = Char.ofNat 13 ∨ c = Char.ofNat 9 then
      ([l.lastTokenD], { l with state := .idle }, none)
    else if isNumeric c then
      ([], { l with tokens := extendLast l.tokens }, none)
    else if isAlphaNumeric c then
      ([], { l with tokens := extendRetypeLast l.tokens }, none)
    else if c = ';' then
      ([l.lastTokenD], { l with state := .comment }, none)
    else
      ([l.lastTokenD], { l with state := .idle }, some (l.newUnexpectedByteError c))
  | .identifier =>
    if isSingleCharToken c then
      let r := l.addToken (tokenFromByte c); (r.1, r.2, none)
    else if c = Char.ofNat 34 then
      -- As in the Number state, the BeginString return value is discarded.
      ([], (l.beginString).2, none)
    else if c = ' ' ∨ c = Char.ofNat 10 ∨ c = Char.ofNat 13 ∨ c = Char.ofNat 9 then
      ([l.lastTokenD], { l with state := .idle }, none)
    else if isAlphaNumeric c then
      ([], { l with tokens := extendLast l.tokens }, none)
    else if c = ';' then
      ([l.lastTokenD], { l with state := .comment }, none)
    else
      ([l.lastTokenD], { l with state := .idle }, some (l.newUnexpectedByteError c))
  | .comment =>
    if c = Char.ofNat 10 ∨ c = Char.ofNat 13 then
      ([], { l with state := .idle }, none)
    else if isCommentCharacter c then
      ([], l, none)
    else
      ([], { l with state := .idle }, some (l.newUnexpectedByteError c))
  | .stringEscaped =>
    if isStringCharacter c then
      ([], { l with tokens := extendLast l.tokens, state := .stringLit }, none)
    else
      ([l.lastTokenD], { l with state := .idle }, some (l.newUnexpectedByteError c))
  | .stringLit =>
    if c = Char.ofNat 34 then
      let ts := extendLast l.tokens
      ([ts.getLastD defaultToken], { l with tokens := ts, state := .idle }, none)
    else if c = Char.ofNat 92 then
      ([], { l with tokens := extendLast l.tokens, state := .stringEscaped }, none)
    else if isStringCharacter c then
      ([], { l with tokens := extendLast l.tokens }, none)
    else
      ([l.lastTokenD], { l with state := .idle }, some (l.newUnexpectedByteError c))

/-- Go `Lex.Consume`: run the FSM transition, then append the byte to
the source buffer. -/
def consume (l : Lex) (c : Char) : List Token × Lex × Option Err :=
  let r := consumeImpl l c
  (r.1, { r.2.1 with source := r.2.1.source ++ [c] }, r.2.2)

/-- Feed a list of bytes to the lexer, accumulating emitted tokens and
stopping at the first error (as the driver loops in the Go source do). -/
def consumeList (l : Lex) : List Char → List Token × Lex × Option Err
  | [] => ([], l, none)
  | c :: rest =>
    let r := consume l c
    match r.2.2 with
    | some e => (r.1, r.2.1, some e)
    | none =>
      let r2 := consumeList r.2.1 rest
      (r.1 ++ r2.1, r2.2.1, r2.2.2)

/-- The initial (zero-value) lexer. -/
def emptyLex : Lex := ⟨[], [], .idle⟩

/-- Go `ValueType`. -/
inductive ValueType where
  | valNull
  | valBool
  | valPair
  | valSymbol
  | valNumber
  | valChar
  | valString
  | valProc
  deriving DecidableEq, Repr

/-- Go `ValueType.String()`. -/
def ValueType.toGoString : ValueType → String
  | .valNull => "ValNull"
  | .valBool => "ValBool"
  | .valPair => "ValPair"
  | .valSymbol => "ValSymbol"
  | .valNumber => "ValNumber"
  | .valChar => "ValChar"
  | .valString => "ValString"
  | .valProc => "ValProc"

/-- The native procedures stored in the `Proc` field of a Go `Value`.
The only procedures this program ever creates are `plusFn` and `quoteFn`
(in `TestEval`), so the function field is defunctionalized to this
enumeration; `applyProc` (below) gives each identifier its Go body. -/
inductive ProcId where
  | plus
  | quote
  deriving DecidableEq, Repr

/-- Go `Value`.  The Go struct carries a `Type` tag plus one payload
field per tag (unused fields stay at their zero values and are never
read), which is exactly a tagged union: each constructor keeps the
`Token` field (read by error reporting on every variant) and the payload
its tag uses.  `nilp` models a `nil` `*Value` child pointer: Go `Value`
children are `*Value` and may be `nil`; dereferencing one aborts the
program (`Err.goAbort`). -/
inductive Value where
  | null (token : Token)
  | bool (token : Token) (b : Bool)
  | pair (token : Token) (left right : Value)
  | symbol (token : Token) (s : String)
  | number (token : Token) (n : Int)
  | char (token : Token) (c : Char)
  | str (token : Token) (s : String)
  | proc (token : Token) (p : ProcId)
  | nilp
  deriving DecidableEq, Repr

/-- Go `Value.Type`.  `nilp` is a nil pointer, which has no type tag in
Go (reading it would crash); the `.valNull` result for it is unreachable
because every dereference site guards against `nilp` first. -/
def Value.type : Value → ValueType
  | .null _ => .valNull
  | .bool _ _ => .valBool
  | .pair _ _ _ => .valPair
  | .symbol _ _ => .valSymbol
  | .number _ _ => .valNumber
  | .char _ _ => .valChar
  | .str _ _ => .valString
  | .proc _ _ => .valProc
  | .nilp => .valNull

/-- Go `Value.Token` (zero value for the unreachable nil-pointer case). -/
def Value.token : Value → Token
  | .null t => t
  | .bool t _ => t
  | .pair t _ _ => t
  | .symbol t _ => t
  | .number t _ => t
  | .char t _ => t
  | .str t _ => t
  | .proc t _ => t
  | .nilp => defaultToken

/-- Go `ValueNull()`. -/
def valueNull : Value := .null defaultToken

/-- Go `Value.String()` / `fmt` formatting of a `*Value`.  A `nil`
pointer prints as `<nil>`; `String()` on a `ValProc` panics in Go, which
is modelled by `none`. -/
def printValue : Value → Option String
  | .null _ => some "ValNull<()>"
  | .bool _ b => some ("ValBool<" ++ (if b then "true" else "false") ++ ">")
  | .pair _ l r =>
    match printValue l, printValue r with
    | some ls, some rs => some ("ValPair<(" ++ ls ++ " . " ++ rs ++ ")>")
    | _, _ => none
  | .symbol _ s => some ("ValSymbol<" ++ s ++ ">")
  | .number _ n => some ("ValNumber<" ++ toString n ++ ">")
  | .char _ c => some ("ValChar<" ++ c.toString ++ ">")
  | .str _ s => some ("ValString<" ++ s ++ ">")
  | .proc _ _ => none
  | .nilp => some "<nil>"

/-- `true` iff no `Value` reachable in the tree is the Procedure
variant. -/
def procFree : Value → Bool
  | .proc _ _ => false
  | .pair _ l r => procFree l && procFree r
  | _ => true

/-- The spec's own Value data model (§3): the same tagged variants but
without token metadata, which the spec does not include. -/
inductive ValueShape where
  | null
  | bool (b : Bool)
  | pair (left right : ValueShape)
  | symbol (s : String)
  | number (n : Int)
  | char (c : Char)
  | str (s : String)
  | proc (p : ProcId)
  | nilp
  deriving DecidableEq, Repr

/-- Erase token metadata, mapping a runtime `Value` to the spec's Value
model. -/
def erase : Value → ValueShape
  | .null _ => .null
  | .bool _ b => .bool b
  | .pair _ l r => .pair (erase l) (erase r)
  | .symbol _ s => .symbol s
  | .number _ n => .number n
  | .char _ c => .char c
  | .str _ s => .str s
  | .proc _ p => .proc p
  | .nilp => .nilp

/-- Decimal value of a digit sequence; `none` if empty or any character
is not a digit. -/
def digitsVal : List Char → Option Nat
  | [] => none
  | [c] => if isNumeric c then some (c.toNat - 48) else none
  | c :: rest =>
    if isNumeric c then
      match digitsVal rest with
      | some n => some ((c.toNat - 48) * 10 ^ rest.length + n)
      | none => none
    else none

/-- Modelled from Go's standard library: `strconv.Atoi` on a 64-bit
platform accepts an optional sign followed by digits and reports an error
on empty input, stray characters, or values outside the `int64` range. -/
def atoi (s : List Char) : Option Int :=
  match s with
  | '+' :: rest =>
    match digitsVal rest with
    | some n => if n ≤ 2 ^ 63 - 1 then some (n : Int) else none
    | none => none
  | '-' :: rest =>
    match digitsVal rest with
    | some n => if n ≤ 2 ^ 63 then some (-(n : Int)) else none
    | none => none
  | _ =>
    match digitsVal s with
    | some n => if n ≤ 2 ^ 63 - 1 then some (n : Int) else none
    | none => none

/-- Go `Token.String()`: the token type's name. -/
def tokenTypeName : TokenType → String
  | .invalid => "TokInvalid"
  | .number => "TokNumber"
  | .identifier => "TokIdentifier"
  | .str => "TokString"
  | .lparen => "TokLparen"
  | .rparen => "TokRparen"
  | .dot => "TokDot"
  | .quote => "TokQuote"

/-- The literal text of a token: `source[offset : offset+length]`. -/
def tokenLiteral (source : List Char) (t : Token) : String :=
  String.mk ((source.drop t.offset).take t.length)

/-- Go `TokensFormatter.String()`. -/
def tokensFormat (source : List Char) (ts : List Token) : String :=
  "[" ++ String.intercalate ", "
    (ts.map (fun t => tokenTypeName t.type ++ "<" ++ tokenLiteral source t ++ ">")) ++ "]"

/-- Go `ValueFromToken`: convert a terminal token to a `Value` atom.
Returns the Go `(Value, error)` pair.  The Go function panics on token
types other than Number/Identifier/String (callers never pass them). -/
def valueFromToken (lex : Lex) (token : Token) : Value × Option Err :=
  let repr := tokenLiteral lex.source token
  match token.type with
  | .number =>
    match atoi repr.toList with
    | none =>
      (.null defaultToken, some (newError lex.source token.offset
        ("Can" ++ (Char.ofNat 39).toString ++ "t parse number " ++ tokensFormat lex.source [token])))
    | some n => (.number token n, none)
  | .identifier =>
    if repr = "#f" then (.bool token false, none)
    else if repr = "#t" then (.bool token true, none)
    else (.symbol token repr, none)
  | .str => (.str token repr, none)
  | _ => (.null defaultToken, some (.goAbort "Cannot convert token to Value"))

/-- Go `Pars`: the lexer plus the pending-token queue. -/
structure Pars where
  lex : Lex
  tokens : List Token
  deriving DecidableEq, Repr

/-- The initial (zero-value) parser. -/
def emptyPars : Pars := ⟨emptyLex, []⟩

/-- Go `Pars.NextToken`: drain the queued tokens first; otherwise feed
bytes from `input` to the lexer until at least one token is queued.
End of input is `io.EOF` (`Err.eof`); on a lexer error the freshly
emitted tokens are discarded, as in the Go source. -/
def nextToken (p : Pars) (input : List Char) : Except Err Token × Pars × List Char :=
  match p.tokens with
  | t :: ts => (.ok t, ⟨p.lex, ts⟩, input)
  | [] =>
    match input with
    | [] => (.error .eof, p, [])
    | c :: rest =>
      let r := consume p.lex c
      match r.2.2 with
      | some e => (.error e, ⟨r.2.1, []⟩, rest)
      | none => nextToken ⟨r.2.1, r.1⟩ rest

/-- Go `Pars.NewUnexpectedTokenError`. -/
def unexpectedTokenError (p : Pars) (token : Token) : Err :=
  newError p.lex.source token.offset
    ("Unexpected token " ++ tokensFormat p.lex.source [token])

mutual

/-- Go `Pars.ParseRemainingList`: the loop that builds the right-spine of
a list after its first element.  The Go loop threads a `pseudoRoot` /
`last` pointer pair and mutates the freshly allocated `expression` node
in place; functionally each iteration contributes one `Pair` layer, so
the loop becomes the recursion below.  On an error path Go returns the
partially built chain together with the error: the node under
construction is the `expression := Value{Type: ValPair}` allocation with
both child pointers still `nil`, i.e. `.pair defaultToken .nilp .nilp`.
The `Nat` argument is recursion fuel (Go recurses without it); with
enough fuel `Err.fuelOut` never arises. -/
def parseRemainingList : Nat → Pars → List Char → Value × Pars × List Char × Option Err
  | 0, p, input => (.pair defaultToken .nilp .nilp, p, input, some .fuelOut)
  | fuel + 1, p, input =>
    match nextToken p input with
    | (.error e, p1, in1) => (.pair defaultToken .nilp .nilp, p1, in1, some e)
    | (.ok token, p1, in1) =>
      if token.type = .dot then
        -- A pretty much determined sequence is expected here after we got
        -- the TokDot token type
        match parseNextWithToken fuel p1 in1 defaultToken with
        | (_, p2, in2, some e) => (.pair defaultToken .nilp .nilp, p2, in2, some e)
        | (right, p2, in2, none) =>
          match nextToken p2 in2 with
          | (.error e, p3, in3) => (right, p3, in3, some e)
          | (.ok token2, p3, in3) =>
            if token2.type ≠ .rparen then (right, p3, in3, some (unexpectedTokenError p3 token2))
            else (right, p3, in3, none)
      else if token.type = .rparen then (valueNull, p1, in1, none)
      else
        match parseNextWithToken fuel p1 in1 token with
        | (_, p2, in2, some e) => (.pair defaultToken .nilp .nilp, p2, in2, some e)
        | (left, p2, in2, none) =>
          match parseRemainingList fuel p2 in2 with
          | (rest, p3, in3, e?) => (.pair defaultToken left rest, p3, in3, e?)

/-- Go `Pars.ParseNextWithToken`.  A `TokRparen` handed in by the caller
is a contract violation that panics in Go (`Err.goAbort` here); a
`TokInvalid` parent token means "pull the next token yourself". -/
def parseNextWithToken : Nat → Pars → List Char → Token → Value × Pars × List Char × Option Err
  | 0, p, input, _ => (valueNull, p, input, some .fuelOut)
  | fuel + 1, p, input, parentToken =>
    if parentToken.type = .rparen then
      -- Safety measure
      (valueNull, p, input, some (.goAbort "Delegated unexpected token"))
    else
      match (if parentToken.type = .invalid then nextToken p input
             else (.ok parentToken, p, input)) with
      | (.error e, p1, in1) => (valueNull, p1, in1, some e)
      | (.ok token, p1, in1) =>
        match token.type with
        | .identifier | .number | .str =>
          match valueFromToken p1.lex token with
          | (v, e?) => (v, p1, in1, e?)
        | .lparen =>
          match nextToken p1 in1 with
          | (.error e, p2, in2) => (valueNull, p2, in2, some e)
          | (.ok token2, p2, in2) =>
            if token2.type = .rparen then (.null token, p2, in2, none)
            else
              match parseNextWithToken fuel p2 in2 token2 with
              | (_, p3, in3, some e) => (valueNull, p3, in3, some e)
              | (left, p3, in3, none) =>
                match parseRemainingList fuel p3 in3 with
                | (right, p4, in4, e?) => (.pair defaultToken left right, p4, in4, e?)
        | .quote =>
          -- Go returns the rewritten node even when ParseNext failed.
          match parseNextWithToken fuel p1 in1 defaultToken with
          | (quoted, p2, in2, e?) =>
            (.pair defaultToken (.symbol token "quote")
              (.pair defaultToken quoted valueNull), p2, in2, e?)
        | _ => (valueNull, p1, in1, some (unexpectedTokenError p1 token))

end

/-- Go `Pars.ParseNext`: parse with a `TokInvalid` parent token, i.e.
pull the first token from the stream. -/
def parseNext (fuel : Nat) (p : Pars) (input : List Char) :
    Value × Pars × List Char × Option Err :=
  parseNextWithToken fuel p input ⟨0, 0, .invalid⟩

/-- Go `Interp`: the source reference (for error positions) and the
procedure table.  Go's `map[string]Value` is modelled as an association
list consulted by `tableLookup`. -/
structure Interp where
  source : List Char
  table : List (String × Value)
  deriving DecidableEq, Repr

/-- Lookup in the procedure table (Go map indexing with the `ok`
idiom). -/
def tableLookup : List (String × Value) → String → Option Value
  | [], _ => none
  | (k, v) :: rest, s => if k = s then some v else tableLookup rest s

/-- Go `int` is a 64-bit two's-complement integer; addition wraps. -/
def wrap64 (x : Int) : Int := (x + 2 ^ 63) % 2 ^ 64 - 2 ^ 63

/-- The loop body of Go `plusFn` (defined in `TestEval`): fold a
Pair-chain of Number values with wrapping 64-bit addition.  Note that the
"expected ValNumber" error message interpolates `arg.Type` — the type of
the carrier pair — and not the offending element's type, exactly as the
Go source does. -/
def plusLoop (interp : Interp) (acc : Int) : Value → Except Err Value
  | .null _ => .ok (.number defaultToken acc)
  | .pair tok left right =>
    match left with
    | .nilp => .error (.goAbort "nil pointer dereference")
    | .number _ n =>
      let acc := wrap64 (acc + n)
      -- `if arg.PairRight == nil || arg.PairRight.Type == ValNull { break }`
      match right with
      | .nilp => .ok (.number defaultToken acc)
      | .null _ => .ok (.number defaultToken acc)
      | r => plusLoop interp acc r
    | _ =>
      .error (newError interp.source tok.offset
        ("Unexpected value type " ++ (ValueType.valPair).toGoString ++ ", expected ValNumber"))
  | arg =>
    .error (newError interp.source arg.token.offset
      ("Unexpected arg carrier type " ++ arg.type.toGoString ++ ", expected ValPair"))

/-- Go `plusFn`: `acc` starts at 0. -/
def plusFn (arg : Value) (interp : Interp) : Except Err Value :=
  plusLoop interp 0 arg

/-- Go `quoteFn`: returns its argument unchanged. -/
def quoteFn (arg : Value) (_interp : Interp) : Except Err Value := .ok arg

/-- Dispatch a defunctionalized procedure identifier to its Go body. -/
def applyProc : ProcId → Value → Interp → Except Err Value
  | .plus, arg, interp => plusFn arg interp
  | .quote, arg, interp => quoteFn arg interp

mutual

/-- Go `Interp.Eval`.  The `Nat` argument is recursion fuel (Go recurses
without it); with enough fuel `Err.fuelOut` never arises.  Go returns
`(Value{Type: ValNull}, err)` on every error path, so `Except` carries
just the error.  The `nilp` cases model the Go nil-pointer dereferences
`*expression.PairLeft` / `*expression.PairRight` at the call sites. -/
def eval : Nat → Value → Interp → Except Err Value
  | 0, _, _ => .error .fuelOut
  | fuel + 1, expression, interp =>
    match expression with
    | .symbol tok s =>
      match tableLookup interp.table s with
      | none =>
        .error (newError interp.source tok.offset
          ("Unbound variable: \"" ++ s ++ "\""))
      | some value => .ok value
    | .pair tok l r =>
      match l with
      | .nilp => .error (.goAbort "nil pointer dereference")
      | lv =>
        match eval fuel lv interp with
        | .error e => .error e
        | .ok left =>
          match left with
          | .proc _ pid =>
            match r with
            | .nilp => .error (.goAbort "nil pointer dereference")
            | rv =>
              match evalRight fuel rv interp with
              | .error e => .error e
              | .ok right => applyProc pid right interp
          | _ =>
            -- left.Type != ValProc: "Wrong type to apply" formats the
            -- whole expression; formatting panics on a ValProc subtree.
            match printValue expression with
            | none => .error (.goAbort "String() for ValProc is not implemented")
            | some s =>
              .error (newError interp.source tok.offset ("Wrong type to apply: " ++ s))
    | .nilp =>
      -- A nil pointer can never reach Eval in Go: every call site
      -- dereferences (and this model guards) first.
      .error (.goAbort "nil pointer dereference")
    | other => .ok other

/-- Go `Interp.EvalRight`: evaluate an argument list left to right,
building a matching result chain whose nodes carry zero tokens; a
non-`Pair` tail evaluates to the chain's terminator. -/
def evalRight : Nat → Value → Interp → Except Err Value
  | 0, _, _ => .error .fuelOut
  | fuel + 1, expression, interp =>
    match expression with
    | .pair _ l r =>
      match l with
      | .nilp => .error (.goAbort "nil pointer dereference")
      | lv =>
        match eval fuel lv interp with
        | .error e => .error e
        | .ok left =>
          match r with
          | .nilp => .error (.goAbort "nil pointer dereference")
          | rv =>
            match evalRight fuel rv interp with
            | .error e => .error e
            | .ok rest => .ok (.pair defaultToken left rest)
    | other =>
      match eval fuel other interp with
      | .error e => .error e
      | .ok right => .ok right

end

/-- The reference procedure table populated by Go `TestEval`. -/
def refTable : List (String × Value) :=
  [("+", .proc defaultToken .plus), ("quote", .proc defaultToken .quote)]

/-- Parse one expression from a string with a fresh parser, as the Go
driver loop does for each top-level expression. -/
def parseOneString (fuel : Nat) (s : String) : Value × Pars × List Char × Option Err :=
  parseNext fuel emptyPars s.toList

/-- The Go `TestEval` pipeline for a single expression: parse it, then
evaluate it against the reference table, with the interpreter's source
reference pointing at the lexer's buffer (as `interpreter.Source =
&parser.Lex.Source` does).  A parse error is returned as-is (Go reports
it and skips evaluation). -/
def evalOneString (fuel : Nat) (s : String) : Except Err Value :=
  match parseOneString fuel s with
  | (_, _, _, some e) => .error e
  | (v, p, _, none) => eval fuel v ⟨p.lex.source, refTable⟩

/-! ## Theorems -/

/-- Claim C1, counterexample: evaluating `(quote 1)` does not yield the
argument expression `1` unevaluated; it yields the evaluated argument
list `(1)` — a Pair holding the Number, not the Number itself — because
`Eval` runs `EvalRight` over the argument list before invoking the
`quote` procedure. -/
theorem quote_does_not_return_arg_unevaluated :
    evalOneString 60 "(quote 1)" =
      .ok (.pair defaultToken (.number ⟨7, 1, .number⟩ 1) (.null defaultToken)) ∧
    evalOneString 60 "(quote 1)" ≠ .ok (.number ⟨7, 1, .number⟩ 1) := by
  have h : evalOneString 60 "(quote 1)" =
      .ok (.pair defaultToken (.number ⟨7, 1, .number⟩ 1) (.null defaultToken)) := rfl
  exact ⟨h, by rw [h]; simp⟩

/-- Claim C1, amended: the built-in `quote` procedure returns exactly the
argument `Value` it receives, but `Eval` has already evaluated the
argument list before invoking it, so evaluating a Pair whose head
resolves to `quote` yields the result of `EvalRight` on the argument
list — not the argument expression unevaluated. -/
theorem quote_application_returns_evaluated_args
    (fuel : Nat) (tok qtok ptok : Token) (rest : Value) (interp : Interp)
    (hq : tableLookup interp.table "quote" = some (.proc ptok .quote))
    (hr : rest ≠ .nilp) :
    eval (fuel + 1 + 1) (.pair tok (.symbol qtok "quote") rest) interp =
      evalRight (fuel + 1) rest interp := by
  cases rest
  case nilp => exact absurd rfl hr
  all_goals
    simp only [eval, hq, applyProc, quoteFn]
    split <;> (rename_i hsp; exact hsp.symm)

/-- Witness for the amended C1 theorem at a concrete input. -/
theorem quote_application_returns_evaluated_args_witness :
    tableLookup refTable "quote" = some (.proc defaultToken .quote) ∧
    (Value.pair defaultToken (.number defaultToken 7) (.null defaultToken) ≠ .nilp) ∧
    eval (3 + 1 + 1)
        (.pair defaultToken (.symbol defaultToken "quote")
          (.pair defaultToken (.number defaultToken 7) (.null defaultToken)))
        ⟨[], refTable⟩ =
      evalRight (3 + 1)
        (.pair defaultToken (.number defaultToken 7) (.null defaultToken))
        ⟨[], refTable⟩ :=
  ⟨rfl, by decide,
    quote_application_returns_evaluated_args 3 defaultToken defaultToken defaultToken
      (.pair defaultToken (.number defaultToken 7) (.null defaultToken))
      ⟨[], refTable⟩ rfl (by decide)⟩

/-- Claim C2: the position-locating scan of `NewError` evaluated at the
failing input `"a\r\nb"`, offset 3 (the byte `b`).  The claim (and the
comment inside `NewError` itself) require CR+LF to count as one line
break, i.e. line 2; but `prev` is never assigned in the Go loop, so the
CR+LF pair is counted as two breaks and the code reports line 3. -/
theorem newError_counts_crlf_as_two_breaks :
    newError "a\r\nb".toList 3 "x" = .mk 3 1 "x" ∧
    newError "a\r\nb".toList 3 "x" ≠ .mk 2 1 "x" :=
  ⟨rfl, by decide⟩

/-- Claim C3: evaluating `(+ 1 "x")` produces an error, but its message
names `ValPair` — the type of the argument-carrier pair (`arg.Type` in
the Go source) — rather than `ValString`, the type of the offending
element, which the claim (and the surrounding message template) expect. -/
theorem plus_wrong_element_error_names_carrier_type :
    evalOneString 60 "(+ 1 \"x\")" =
      .error (.mk 1 1 "Unexpected value type ValPair, expected ValNumber") :=
  rfl

/-- Claim C6: inside `ParseRemainingList`, a Dot token switches to
dotted-tail mode: exactly one expression is parsed as the tail
(`ParseNext`, i.e. `parseNextWithToken` with a `TokInvalid` parent), and
the very next token must be a right parenthesis; any other token makes
parsing fail with the "unexpected token" parse error. -/
theorem dotted_tail_requires_rparen
    (fuel : Nat) (p : Pars) (input : List Char)
    (dotTok : Token) (p1 : Pars) (in1 : List Char)
    (tailV : Value) (p2 : Pars) (in2 : List Char)
    (t : Token) (p3 : Pars) (in3 : List Char)
    (h1 : nextToken p input = (.ok dotTok, p1, in1))
    (h2 : dotTok.type = .dot)
    (h3 : parseNextWithToken fuel p1 in1 defaultToken = (tailV, p2, in2, none))
    (h4 : nextToken p2 in2 = (.ok t, p3, in3)) :
    parseRemainingList (fuel + 1) p input =
      (tailV, p3, in3,
        if t.type = .rparen then none else some (unexpectedTokenError p3 t)) := by
  simp only [parseRemainingList, h1, h2, h3, h4, if_pos]
  by_cases ht : t.type = .rparen <;> simp [ht]

/-- Witness for C6 at the concrete input `". 2 3)"` (the remainder of
`"(1 . 2 3)"` after the first element): the token after the parsed tail
`2` is the Number token `3`, not `)`, so the parse fails with the
"unexpected token" error. -/
theorem dotted_tail_requires_rparen_witness :
    nextToken emptyPars ". 2 3)".toList =
      (.ok ⟨0, 1, .dot⟩, ⟨⟨['.'], [⟨0, 1, .dot⟩], .idle⟩, []⟩, " 2 3)".toList) ∧
    (⟨0, 1, .dot⟩ : Token).type = .dot ∧
    parseNextWithToken 5 ⟨⟨['.'], [⟨0, 1, .dot⟩], .idle⟩, []⟩ " 2 3)".toList defaultToken =
      (.number ⟨2, 1, .number⟩ 2,
        ⟨⟨['.', ' ', '2', ' '], [⟨0, 1, .dot⟩, ⟨2, 1, .number⟩], .idle⟩, []⟩,
        ['3', ')'], none) ∧
    nextToken ⟨⟨['.', ' ', '2', ' '], [⟨0, 1, .dot⟩, ⟨2, 1, .number⟩], .idle⟩, []⟩ ['3', ')'] =
      (.ok ⟨4, 1, .number⟩,
        ⟨⟨". 2 3)".toList,
          [⟨0, 1, .dot⟩, ⟨2, 1, .number⟩, ⟨4, 1, .number⟩, ⟨5, 1, .rparen⟩], .idle⟩,
          [⟨5, 1, .rparen⟩]⟩, []) ∧
    parseRemainingList (5 + 1) emptyPars ". 2 3)".toList =
      (.number ⟨2, 1, .number⟩ 2,
        ⟨⟨". 2 3)".toList,
          [⟨0, 1, .dot⟩, ⟨2, 1, .number⟩, ⟨4, 1, .number⟩, ⟨5, 1, .rparen⟩], .idle⟩,
          [⟨5, 1, .rparen⟩]⟩, [],
        if (⟨4, 1, .number⟩ : Token).type = .rparen then none
        else some (unexpectedTokenError
          ⟨⟨". 2 3)".toList,
            [⟨0, 1, .dot⟩, ⟨2, 1, .number⟩, ⟨4, 1, .number⟩, ⟨5, 1, .rparen⟩], .idle⟩,
            [⟨5, 1, .rparen⟩]⟩ ⟨4, 1, .number⟩)) :=
  ⟨rfl, rfl, rfl, rfl,
    dotted_tail_requires_rparen 5 emptyPars ". 2 3)".toList
      ⟨0, 1, .dot⟩ ⟨⟨['.'], [⟨0, 1, .dot⟩], .idle⟩, []⟩ " 2 3)".toList
      (.number ⟨2, 1, .number⟩ 2)
      ⟨⟨['.', ' ', '2', ' '], [⟨0, 1, .dot⟩, ⟨2, 1, .number⟩], .idle⟩, []⟩ ['3', ')']
      ⟨4, 1, .number⟩
      ⟨⟨". 2 3)".toList,
        [⟨0, 1, .dot⟩, ⟨2, 1, .number⟩, ⟨4, 1, .number⟩, ⟨5, 1, .rparen⟩], .idle⟩,
        [⟨5, 1, .rparen⟩]⟩ []
      rfl rfl rfl rfl⟩

/-- Claim C4, counterexample: with a String token being accumulated
(state `LexString`, reached e.g. by consuming a double quote from the
initial state), consuming `(` does not flush the in-progress token and
does not produce the single-character token: the byte is an ordinary
string character, the String token is extended, and zero tokens are
returned — not the two the claim requires. -/
theorem string_state_single_char_no_flush :
    (consume emptyLex (Char.ofNat 34)).2.1 = ⟨[Char.ofNat 34], [⟨0, 1, .str⟩], .stringLit⟩ ∧
    (consumeImpl ⟨[Char.ofNat 34], [⟨0, 1, .str⟩], .stringLit⟩ '(').1 = [] :=
  ⟨rfl, rfl⟩

/-- Claim C4, amended: consuming one of `(`, `)`, `.`, `'` flushes the
in-progress token and returns it together with the new single-character
token (exactly two tokens) in the `LexNumber` and `LexIdentifier`
accumulating states; in `LexIdle` only the new single-character token is
returned.  Inside `LexString`/`LexStringEscaped` the byte is an ordinary
string character and inside `LexComment` it is skipped (no flush).  No
consume call ever returns more than two tokens. -/
theorem single_char_token_flush_behavior (l : Lex) (c : Char)
    (hc : c = '(' ∨ c = ')' ∨ c = '.' ∨ c = Char.ofNat 39) :
    ((l.state = .number ∨ l.state = .identifier) →
      (consumeImpl l c).1 = [l.lastTokenD, ⟨l.source.length, 1, tokenFromByte c⟩]) ∧
    (l.state = .idle → (consumeImpl l c).1 = [⟨l.source.length, 1, tokenFromByte c⟩]) ∧
    ∀ cc : Char, (consumeImpl l cc).1.length ≤ 2 := by
  obtain ⟨src, toks, st⟩ := l
  refine ⟨?_, ?_, ?_⟩
  · rintro (hst | hst) <;> cases hst <;> rcases hc with rfl | rfl | rfl | rfl <;> rfl
  · intro hst; cases hst; rcases hc with rfl | rfl | rfl | rfl <;> rfl
  · intro cc
    cases st <;> simp only [consumeImpl]
    all_goals repeat' split
    all_goals simp [Lex.addToken, Lex.beginString, Lex.lastTokenD]

/-- Witness for the amended C4 theorem: a lexer mid-way through the
Number token `1`, consuming `(`. -/
theorem single_char_token_flush_behavior_witness :
    ((⟨['1'], [⟨0, 1, .number⟩], .number⟩ : Lex).state = .number ∨
     (⟨['1'], [⟨0, 1, .number⟩], .number⟩ : Lex).state = .identifier) ∧
    (consumeImpl ⟨['1'], [⟨0, 1, .number⟩], .number⟩ '(').1 =
      [(⟨['1'], [⟨0, 1, .number⟩], .number⟩ : Lex).lastTokenD,
       ⟨(['1'] : List Char).length, 1, tokenFromByte '('⟩] :=
  ⟨Or.inl rfl,
    (single_char_token_flush_behavior ⟨['1'], [⟨0, 1, .number⟩], .number⟩ '('
      (Or.inl rfl)).1 (Or.inl rfl)⟩

/-- Mutating the last element of a snoc list. -/
lemma updateLast_concat (ts : List Token) (t : Token) (f : Token → Token) :
    updateLast (ts ++ [t]) f = ts ++ [f t] := by
  simp [updateLast, List.dropLast_concat, List.getLastD_concat]

/-- A digit is not one of the single-character token bytes, not the
double quote, and not whitespace. -/
lemma isNumeric_char_facts {c : Char} (h : isNumeric c = true) :
    ¬(isSingleCharToken c = true) ∧ ¬(c = Char.ofNat 34) ∧
      ¬(c = ' ' ∨ c = Char.ofNat 10 ∨ c = Char.ofNat 13 ∨ c = Char.ofNat 9) := by
  refine ⟨?_, ?_, ?_⟩
  · intro hs
    simp only [isSingleCharToken, decide_eq_true_eq] at hs
    rcases hs with rfl | rfl | rfl | rfl <;> revert h <;> decide
  · rintro rfl; revert h; decide
  · rintro (rfl | rfl | rfl | rfl) <;> revert h <;> decide

/-- An ASCII letter is alphanumeric but not a digit, not a
single-character token byte, not the double quote, and not whitespace. -/
lemma letter_char_facts {c : Char}
    (hl : (Char.ofNat 97 ≤ c ∧ c ≤ Char.ofNat 122) ∨
          (Char.ofNat 65 ≤ c ∧ c ≤ Char.ofNat 90)) :
    ¬(isSingleCharToken c = true) ∧ ¬(c = Char.ofNat 34) ∧
      ¬(c = ' ' ∨ c = Char.ofNat 10 ∨ c = Char.ofNat 13 ∨ c = Char.ofNat 9) ∧
      isNumeric c = false ∧ isAlphaNumeric c = true := by
  refine ⟨?_, ?_, ?_, ?_, ?_⟩
  · intro hs
    simp only [isSingleCharToken, decide_eq_true_eq] at hs
    rcases hs with rfl | rfl | rfl | rfl <;>
      rcases hl with ⟨h1, _⟩ | ⟨h1, _⟩ <;> exact absurd h1 (by decide)
  · rintro rfl
    rcases hl with ⟨h1, _⟩ | ⟨h1, _⟩ <;> exact absurd h1 (by decide)
  · rintro (rfl | rfl | rfl | rfl) <;>
      rcases hl with ⟨h1, _⟩ | ⟨h1, _⟩ <;> exact absurd h1 (by decide)
  · rw [Bool.eq_false_iff]
    intro hn
    simp only [isNumeric, decide_eq_true_eq] at hn
    rcases hl with ⟨h1, _⟩ | ⟨h1, _⟩ <;> exact absurd (le_trans h1 hn.2) (by decide)
  · have halpha : isAlphabetic c = true := by
      simp only [isAlphabetic, decide_eq_true_eq]
      rcases hl with ⟨h1, h2⟩ | ⟨h1, h2⟩
      · exact Or.inl ⟨h1, h2⟩
      · exact Or.inr (Or.inl ⟨h1, h2⟩)
    simp only [isAlphaNumeric, decide_eq_true_eq]
    exact Or.inr (Or.inl halpha)

/-- Consuming a digit in the idle state begins a Number token and emits
nothing. -/
lemma consume_idle_digit (l : Lex) (c : Char) (hst : l.state = .idle)
    (hc : isNumeric c = true) :
    consume l c =
      ([], ⟨l.source ++ [c], l.tokens ++ [⟨l.source.length, 1, .number⟩], .number⟩, none) := by
  obtain ⟨src, toks, st⟩ := l
  cases hst
  obtain ⟨h1, h2, h3⟩ := isNumeric_char_facts hc
  simp [consume, consumeImpl, h1, h3, hc, Lex.beginNumber]

/-- Consuming a digit in the Number state extends the in-progress token
and emits nothing. -/
lemma consume_number_digit (l : Lex) (c : Char) (hst : l.state = .number)
    (hc : isNumeric c = true) :
    consume l c = ([], ⟨l.source ++ [c], extendLast l.tokens, .number⟩, none) := by
  obtain ⟨src, toks, st⟩ := l
  cases hst
  obtain ⟨h1, h2, h3⟩ := isNumeric_char_facts hc
  simp [consume, consumeImpl, h1, h2, h3, hc]

/-- Consuming a letter in the Number state extends the in-progress token,
retypes it to Identifier, and emits nothing. -/
lemma consume_number_letter (l : Lex) (c : Char) (hst : l.state = .number)
    (hl : (Char.ofNat 97 ≤ c ∧ c ≤ Char.ofNat 122) ∨
          (Char.ofNat 65 ≤ c ∧ c ≤ Char.ofNat 90)) :
    consume l c = ([], ⟨l.source ++ [c], extendRetypeLast l.tokens, .number⟩, none) := by
  obtain ⟨src, toks, st⟩ := l
  cases hst
  obtain ⟨h1, h2, h3, h4, h5⟩ := letter_char_facts hl
  simp [consume, consumeImpl, h1, h2, h3, h4, h5]

/-- Unfolding one error-free, token-free lexer step of `consumeList`. -/
lemma consumeList_cons_nil_none (l l' : Lex) (c : Char) (cs : List Char)
    (h : consume l c = ([], l', none)) :
    consumeList l (c :: cs) = consumeList l' cs := by
  simp only [consumeList, h, List.nil_append]

/-- Running the lexer over a digit sequence from the Number state grows
the in-progress Number token by the length of the sequence, emitting
nothing. -/
lemma consumeList_digit_run (ds : List Char) :
    ∀ (tail src : List Char) (pre : List Token) (off len : Nat),
      (∀ c ∈ ds, isNumeric c = true) →
      consumeList ⟨src, pre ++ [⟨off, len, .number⟩], .number⟩ (ds ++ tail) =
        consumeList ⟨src ++ ds, pre ++ [⟨off, len + ds.length, .number⟩], .number⟩ tail := by
  induction ds with
  | nil => intro tail src pre off len _; simp
  | cons c rest ih =>
    intro tail src pre off len hd
    have hc : isNumeric c = true := hd c (List.mem_cons_self c rest)
    have hstep := consume_number_digit ⟨src, pre ++ [⟨off, len, .number⟩], .number⟩ c rfl hc
    rw [List.cons_append, consumeList_cons_nil_none _ _ _ _ hstep]
    have hext : extendLast (pre ++ [(⟨off, len, .number⟩ : Token)]) =
        pre ++ [⟨off, len + 1, .number⟩] := by
      simp [extendLast, updateLast_concat]
    rw [hext, ih tail (src ++ [c]) pre off (len + 1)
      (fun x hx => hd x (List.mem_cons_of_mem c hx))]
    have h1 : src ++ [c] ++ rest = src ++ (c :: rest) := by simp
    have h2 : len + 1 + rest.length = len + (c :: rest).length := by
      simp only [List.length_cons]; omega
    rw [h1, h2]

/-- Claim C5: lexing a digit sequence immediately followed by a letter
and then a token-closing byte (whitespace, a single-character token byte,
or the comment semicolon) emits as its first token a single token of kind
Identifier — not Number — spanning the whole digit-and-letter run. -/
theorem digit_letter_run_lexes_as_identifier
    (ds : List Char) (letterc closer : Char)
    (hds : ds ≠ []) (hdig : ∀ c ∈ ds, isNumeric c = true)
    (hlet : (Char.ofNat 97 ≤ letterc ∧ letterc ≤ Char.ofNat 122) ∨
            (Char.ofNat 65 ≤ letterc ∧ letterc ≤ Char.ofNat 90))
    (hcl : closer = ' ' ∨ closer = Char.ofNat 9 ∨ closer = Char.ofNat 10 ∨
           closer = Char.ofNat 13 ∨ closer = '(' ∨ closer = ')' ∨ closer = '.' ∨
           closer = Char.ofNat 39 ∨ closer = ';') :
    (consumeList emptyLex (ds ++ [letterc, closer])).1.head? =
      some ⟨0, ds.length + 1, .identifier⟩ := by
  obtain ⟨d, ds', rfl⟩ := List.exists_cons_of_ne_nil hds
  have hd : isNumeric d = true := hdig d (List.mem_cons_self d ds')
  have hstep1 := consume_idle_digit emptyLex d rfl hd
  simp only [emptyLex, List.nil_append, List.length_nil] at hstep1
  simp only [emptyLex]
  rw [List.cons_append, consumeList_cons_nil_none _ _ _ _ hstep1]
  have hrun := consumeList_digit_run ds' [letterc, closer] [d] [] 0 1
    (fun x hx => hdig x (List.mem_cons_of_mem d hx))
  simp only [List.nil_append] at hrun
  rw [hrun]
  have hstep2 := consume_number_letter ⟨[d] ++ ds', [⟨0, 1 + ds'.length, .number⟩], .number⟩
    letterc rfl hlet
  rw [consumeList_cons_nil_none _ _ _ _ hstep2]
  have hext : extendRetypeLast [(⟨0, 1 + ds'.length, .number⟩ : Token)] =
      [⟨0, 1 + ds'.length + 1, .identifier⟩] := rfl
  rw [hext]
  have hlen : (d :: ds').length + 1 = 1 + ds'.length + 1 := by
    simp [Nat.add_comm]
  rw [hlen]
  rcases hcl with rfl | rfl | rfl | rfl | rfl | rfl | rfl | rfl | rfl <;> rfl

/-- Witness for C5 at the concrete run `1a` followed by a space. -/
theorem digit_letter_run_lexes_as_identifier_witness :
    (['1'] : List Char) ≠ [] ∧
    (∀ c ∈ (['1'] : List Char), isNumeric c = true) ∧
    ((Char.ofNat 97 ≤ 'a' ∧ 'a' ≤ Char.ofNat 122) ∨
      (Char.ofNat 65 ≤ 'a' ∧ 'a' ≤ Char.ofNat 90)) ∧
    (consumeList emptyLex (['1'] ++ ['a', ' '])).1.head? =
      some ⟨0, (['1'] : List Char).length + 1, .identifier⟩ :=
  ⟨by decide, by decide, by decide,
    digit_letter_run_lexes_as_identifier ['1'] 'a' ' ' (by decide) (by decide)
      (by decide) (Or.inl rfl)⟩

/-- `ValueFromToken` only produces Number, Boolean, Symbol, String, or
Null atoms — never a Procedure. -/
lemma valueFromToken_procFree (lex : Lex) (token : Token) :
    procFree (valueFromToken lex token).1 = true := by
  simp only [valueFromToken]
  split
  · split <;> simp [procFree]
  · split_ifs <;> simp [procFree]
  · simp [procFree]
  · simp [procFree]

/-- No `Value` in the tree returned by `parseNextWithToken` or
`parseRemainingList` (at any fuel, from any parser state and input)
contains the Procedure variant. -/
lemma parse_procFree (fuel : Nat) :
    (∀ p input tok v q rest e, parseNextWithToken fuel p input tok = (v, q, rest, e) →
      procFree v = true) ∧
    (∀ p input v q rest e, parseRemainingList fuel p input = (v, q, rest, e) →
      procFree v = true) := by
  induction fuel with
  | zero =>
    constructor
    · intro p input tok v q rest e h
      simp only [parseNextWithToken, Prod.mk.injEq] at h
      obtain ⟨h1, -, -, -⟩ := h
      subst h1
      simp [procFree, valueNull]
    · intro p input v q rest e h
      simp only [parseRemainingList, Prod.mk.injEq] at h
      obtain ⟨h1, -, -, -⟩ := h
      subst h1
      simp [procFree]
  | succ n ih =>
    obtain ⟨ihA, ihB⟩ := ih
    constructor
    · intro p input tok v q rest e h
      simp only [parseNextWithToken] at h
      revert h
      repeat' split
      all_goals
        intro h
      all_goals
        simp only [Prod.mk.injEq] at h
      all_goals
        obtain ⟨h1, -, -, -⟩ := h
      all_goals
        subst h1
      all_goals
        try simp only [procFree, valueNull, Bool.and_eq_true, valueFromToken_procFree]
      all_goals repeat' apply And.intro
      all_goals
        first
          | rfl
          | trivial
          | exact ihA _ _ _ _ _ _ _ rfl
          | exact ihB _ _ _ _ _ _ rfl
          | solve_by_elim [ihA, ihB]
    · intro p input v q rest e h
      simp only [parseRemainingList] at h
      revert h
      repeat' split
      all_goals
        intro h
      all_goals
        simp only [Prod.mk.injEq] at h
      all_goals
        obtain ⟨h1, -, -, -⟩ := h
      all_goals
        subst h1
      all_goals
        try simp only [procFree, valueNull, Bool.and_eq_true, valueFromToken_procFree]
      all_goals repeat' apply And.intro
      all_goals
        first
          | rfl
          | trivial
          | exact ihA _ _ _ _ _ _ _ rfl
          | exact ihB _ _ _ _ _ _ rfl
          | solve_by_elim [ihA, ihB]

/-- Claim C9: for every token stream (any parser state, any input, any
fuel), no `Value` reachable in the tree returned by the parser has the
Procedure variant: parsing can only create Null, Boolean, Pair, Symbol,
Number, and String nodes. -/
theorem parser_output_has_no_proc (fuel : Nat) (p : Pars) (input : List Char) :
    procFree (parseNext fuel p input).1 = true :=
  (parse_procFree fuel).1 p input ⟨0, 0, .invalid⟩ _ _ _ _ rfl

/-- Claim C7: `"'(1 2)"` parses to the same Value tree (in the spec's
token-free Value model, §3) as `"(quote (1 2))"`: a two-element proper
list headed by the Symbol `quote` whose second element is the list
`(1 2)`.  The runtime trees necessarily differ in their `Token` metadata
(the two sources place `quote` at different offsets), which the spec's
Value model does not include. -/
theorem quote_sugar_parses_like_explicit_quote :
    erase (parseOneString 50 "'(1 2)").1 = erase (parseOneString 50 "(quote (1 2))").1 ∧
    (parseOneString 50 "'(1 2)").2.2.2 = none ∧
    (parseOneString 50 "(quote (1 2))").2.2.2 = none ∧
    erase (parseOneString 50 "'(1 2)").1 =
      .pair (.symbol "quote")
        (.pair (.pair (.number 1) (.pair (.number 2) .null)) .null) :=
  ⟨rfl, rfl, rfl, rfl⟩

/-- Claim C8: `(+ 1 2 3)` evaluates, with the reference table of
`TestEval`, to the Number 6 (carrying a zero token, as `plusFn` builds
its result). -/
theorem plus_1_2_3_evaluates_to_6 :
    evalOneString 60 "(+ 1 2 3)" = .ok (.number defaultToken 6) :=
  rfl

/-- Claim C10: `(+)` — `plusFn` applied to the evaluated empty (Null)
argument list — succeeds with the Number 0: the fold loop body never
runs and the zero accumulator is returned. -/
theorem plus_empty_args_evaluates_to_0 :
    evalOneString 60 "(+)" = .ok (.number defaultToken 0) :=
  rfl

end GoLisp
